import Mathlib

/-!
# write_io_uring.c: a shallow embedding

The program times `loop_count` positional writes of `size` bytes at random
offsets of a file, first with blocking `pwrite` (`run_write`), then through an
io_uring submission/completion queue (`run_write_uring`).

The embedding is a trace semantics.  Every call the C code makes to the
outside world (libc, liburing, the time-stamp counter) is recorded as an
`Event`; what the outside world answers is read from an `Env`.  C `int`
values are `Int`s, `size_t`/`uint64_t`/`unsigned int` values are `Nat`s, and
every cast of the source is an explicit reduction modulo `2^32` or `2^64`.
Signed overflow of an `int` is undefined behaviour in C and is reported as
the exit `RunExit.signed_overflow` instead of being given a value.

`malloc` is taken to return a usable buffer (the source never tests its
result) and the file name is left out of the events, since no control flow
depends on it.  The two `double` conversions and the `double` division of
the cycles-per-byte report are computed in `ℚ`.
-/

namespace WriteIoUring

/-! ## Machine integers -/

/-- Largest value of a C `int` (32 bits). -/
def INT_MAX : Int := 2147483647

/-- Smallest value of a C `int` (32 bits). -/
def INT_MIN : Int := -2147483648

/-- The casts `(unsigned int) v` and `(uint32_t) v`. -/
def to_uint32 (v : Int) : Nat := (v % 4294967296).toNat

/-- The casts `(size_t) v` and `(__u64) v`, and the wrap of `uint64_t` arithmetic. -/
def to_uint64 (v : Int) : Nat := (v % 18446744073709551616).toNat

/-- Multiplication of two `int`s; `none` when the product leaves the `int` range. -/
def mul_int32 (a b : Int) : Option Int :=
  if INT_MIN ≤ a * b ∧ a * b ≤ INT_MAX then some (a * b) else none

/-- The macro body `(1024 * 1024 * 1024)` evaluated left to right in `int` arithmetic. -/
def TARGET_FILE_SIZE_expr : Option Int :=
  (mul_int32 1024 1024).bind (fun p => mul_int32 p 1024)

/-- The macro `TARGET_FILE_SIZE`: `#define TARGET_FILE_SIZE (1024 * 1024 * 1024)`. -/
def TARGET_FILE_SIZE : Int := 1024 * 1024 * 1024

/-- The function `get_random_offset`, given the value `r` that `random()` returned:
`(off_t)(random() % TARGET_FILE_SIZE)`.  C's `%` truncates toward zero. -/
def get_random_offset (r : Int) : Int := Int.tmod r TARGET_FILE_SIZE

/-- Number of values `r` of `random()`'s range `[0, 2^31 - 1]` that
`get_random_offset` sends to the offset `v`. -/
def preimage_count (v : Int) : Nat :=
  ((Finset.range 2147483648).filter (fun r : Nat => get_random_offset (r : Int) = v)).card

/-! ## Events and environment -/

/-- One call made to the outside world, with its arguments and, where the code
looks at it, its result. -/
inductive Event where
  | open_file (dsync : Bool) (ret : Int)
  | perror (msg : String)
  | malloc (size : Nat)
  | memset (size : Nat)
  | rdtsc (value : Nat)
  | pwrite (fd : Int) (count : Nat) (offset : Int) (ret : Int)
  | queue_init (entries : Nat) (ret : Int)
  | get_sqe (ok : Bool)
  | prep_write (fd : Int) (nbytes : Nat) (offset : Nat)
  | submit (ret : Int)
  | wait_cqes (wait_nr : Nat) (ret : Int)
  | cqe_seen
  | stderr (msg : String)
  | printf_line (msg : String)
  | printf_total (uring : Bool) (dsync : Bool) (total_cycles : Nat)
  | printf_cpb (uring : Bool) (dsync : Bool) (value : ℚ)
  | queue_exit
  | close (fd : Int)
  | free

/-- The kind of an event, without its arguments. -/
inductive Tag where
  | open_file | perror | malloc | memset | rdtsc | pwrite | queue_init | get_sqe
  | prep_write | submit | wait_cqes | cqe_seen | stderr | printf_line
  | printf_total | printf_cpb | queue_exit | close | free
  deriving DecidableEq, Repr

/-- The kind of an event. -/
def Event.tag : Event → Tag
  | .open_file _ _ => .open_file
  | .perror _ => .perror
  | .malloc _ => .malloc
  | .memset _ => .memset
  | .rdtsc _ => .rdtsc
  | .pwrite _ _ _ _ => .pwrite
  | .queue_init _ _ => .queue_init
  | .get_sqe _ => .get_sqe
  | .prep_write _ _ _ => .prep_write
  | .submit _ => .submit
  | .wait_cqes _ _ => .wait_cqes
  | .cqe_seen => .cqe_seen
  | .stderr _ => .stderr
  | .printf_line _ => .printf_line
  | .printf_total _ _ _ => .printf_total
  | .printf_cpb _ _ _ => .printf_cpb
  | .queue_exit => .queue_exit
  | .close _ => .close
  | .free => .free

/-- Number of events of kind `t` in a trace. -/
def count_tag (t : Tag) (tr : List Event) : Nat :=
  tr.countP (fun e => decide (e.tag = t))

/-- The `wait_nr` arguments of the wait calls of a trace, in order. -/
def wait_requests (tr : List Event) : List Nat :=
  tr.filterMap (fun e => match e with
    | .wait_cqes n _ => some n
    | _ => none)

/-- The byte counts of the prepared write operations of a trace, in order. -/
def prepared_sizes (tr : List Event) : List Nat :=
  tr.filterMap (fun e => match e with
    | .prep_write _ n _ => some n
    | _ => none)

/-- The byte counts asked of `pwrite` in a trace, in order. -/
def pwrite_sizes (tr : List Event) : List Nat :=
  tr.filterMap (fun e => match e with
    | .pwrite _ n _ _ => some n
    | _ => none)

/-- A file descriptor was obtained: some `open` returned a non-negative value. -/
def acquired_fd (tr : List Event) : Bool :=
  tr.any (fun e => match e with
    | .open_file _ r => decide (0 ≤ r)
    | _ => false)

/-- A queue pair was set up: some `io_uring_queue_init` returned a non-negative value. -/
def acquired_ring (tr : List Event) : Bool :=
  tr.any (fun e => match e with
    | .queue_init _ r => decide (0 ≤ r)
    | _ => false)

/-- A buffer was allocated. -/
def acquired_buffer (tr : List Event) : Bool := decide (0 < count_tag .malloc tr)

/-- The descriptor was closed. -/
def released_fd (tr : List Event) : Bool := decide (0 < count_tag .close tr)

/-- The queue pair was torn down. -/
def released_ring (tr : List Event) : Bool := decide (0 < count_tag .queue_exit tr)

/-- The buffer was freed. -/
def released_buffer (tr : List Event) : Bool := decide (0 < count_tag .free tr)

/-- What the outside world answers during one backend call.  `random i` is the
value of the `i`-th `random()` call, `pwrite_ret i` the result of the `i`-th
`pwrite`, `get_sqe_ok i` tells whether the `i`-th `io_uring_get_sqe` returned a
slot, `wait_ret k` is the result of the `k`-th `io_uring_wait_cqes` and
`cqe_res k j` the field `cqe[j].res` after that call (all counted from 0). -/
structure Env where
  open_ret : Int
  random : Nat → Int
  pwrite_ret : Nat → Int
  queue_init_ret : Int
  get_sqe_ok : Nat → Bool
  submit_ret : Int
  wait_ret : Nat → Int
  cqe_res : Nat → Nat → Int
  start_cycles : Nat
  end_cycles : Nat

/-! ## Timing report -/

/-- The subtraction `end_cycles - start_cycles` in `uint64_t`. -/
def total_cycles (start_cycles end_cycles : Nat) : Nat :=
  to_uint64 ((end_cycles : Int) - (start_cycles : Int))

/-- The expression `(double)total_cycles / ((double)size * (double)loop_count)`. -/
def cycles_per_byte (total : Nat) (size : Nat) (loop_count : Int) : ℚ :=
  (total : ℚ) / ((size : ℚ) * (loop_count : ℚ))

/-- The end of both backends' timed section: read the counter, print the two lines. -/
def report (uring : Bool) (loop_count : Int) (size : Nat) (sync : Int) (env : Env) :
    List Event :=
  [ .rdtsc env.end_cycles,
    .printf_total uring (decide (sync ≠ 0)) (total_cycles env.start_cycles env.end_cycles),
    .printf_cpb uring (decide (sync ≠ 0))
      (cycles_per_byte (total_cycles env.start_cycles env.end_cycles) size loop_count) ]

/-! ## The synchronous backend -/

/-- Body of the loop of `run_write` at iteration `i`. -/
def write_body (env : Env) (fd : Int) (size : Nat) (i : Nat) : List Event :=
  Event.pwrite fd size (get_random_offset (env.random i)) (env.pwrite_ret i) ::
    (if env.pwrite_ret i < 0 ∨ to_uint64 (env.pwrite_ret i) ≠ size
      then [Event.perror "write failed"] else [])

/-- The function `run_write`; `loop_count` is the global it reads.  The loop
`for (int i = 0; i < loop_count; i++)` has no exit but its condition, so it
runs its body for `i = 0, ..., loop_count - 1`. -/
def run_write (loop_count : Int) (size : Nat) (sync : Int) (env : Env) : List Event :=
  if env.open_ret < 0 then
    [.open_file (decide (sync ≠ 0)) env.open_ret, .perror "Failed to open file"]
  else
    [.open_file (decide (sync ≠ 0)) env.open_ret, .malloc size, .memset size,
      .rdtsc env.start_cycles]
    ++ (List.range loop_count.toNat).flatMap (write_body env env.open_ret size)
    ++ report false loop_count size sync env
    ++ [.close env.open_ret, .free]

/-! ## The io_uring backend -/

/-- How a call of `run_write_uring` ends.  `returned` is the return at the end
of the function; the other `return`s are named after their cause.
`signed_overflow` is the undefined behaviour of `i += batch_size` leaving the
`int` range, `diverged` a drain loop that never ends. -/
inductive RunExit where
  | open_failed | queue_init_failed | no_sqe | submit_failed | wait_failed
  | signed_overflow | diverged | returned
  deriving DecidableEq, Repr

/-- The local `queue_size`:
`(unsigned int)(batch_size > loop_count ? batch_size : loop_count)`. -/
def queue_size (loop_count batch_size : Int) : Nat :=
  to_uint32 (if batch_size > loop_count then batch_size else loop_count)

/-- The submission loop `for (int i = 0; i < loop_count; i++)`, with `n`
iterations left and counter `i`.  The Boolean is `false` when the loop was
left through `return` because no slot was handed out. -/
def submission_loop (env : Env) (fd : Int) (size : Nat) : Nat → Nat → Bool × List Event
  | 0, _ => (true, [])
  | n + 1, i =>
    if env.get_sqe_ok i then
      ((submission_loop env fd size n (i + 1)).1,
        Event.get_sqe true ::
        Event.prep_write fd (to_uint32 (size : Int))
          (to_uint64 (get_random_offset (env.random i))) ::
        (submission_loop env fd size n (i + 1)).2)
    else
      (false, [Event.get_sqe false, Event.stderr "ERROR: Failed to get SQE"])

/-- The loop `for (int j = 0; j < batch_size && i + j < loop_count; j++)` over
the completions of the `k`-th wait call.  `j < batch_size` bounds the number
of iterations, which is what the fuel argument counts. -/
def completion_loop (env : Env) (loop_count batch_size i : Int) (k : Nat) :
    Nat → Nat → List Event
  | 0, _ => []
  | fuel + 1, j =>
    if (j : Int) < batch_size ∧ i + (j : Int) < loop_count then
      (if env.cqe_res k j < 0 then [Event.stderr "write (io_uring) failed"] else [])
        ++ Event.cqe_seen :: completion_loop env loop_count batch_size i k fuel (j + 1)
    else []

/-- The drain loop `for (int i = 0; i < loop_count; i += batch_size)`, at
counter `i`, about to make its `k`-th wait call.  The first component is
`none` when the loop ends through its condition. -/
def drain_loop (env : Env) (loop_count batch_size : Int) :
    Nat → Int → Nat → Option RunExit × List Event
  | 0, i, _ => if i < loop_count then (some .diverged, []) else (none, [])
  | fuel + 1, i, k =>
    if i < loop_count then
      if env.wait_ret k < 0 then
        (some .wait_failed,
          [Event.wait_cqes (to_uint32 batch_size) (env.wait_ret k),
           Event.stderr "ERROR: io_uring_wait_cqes failed"])
      else if INT_MAX < i + batch_size ∨ i + batch_size < INT_MIN then
        (some .signed_overflow,
          Event.wait_cqes (to_uint32 batch_size) (env.wait_ret k) ::
          completion_loop env loop_count batch_size i k batch_size.toNat 0)
      else
        ((drain_loop env loop_count batch_size fuel (i + batch_size) (k + 1)).1,
          Event.wait_cqes (to_uint32 batch_size) (env.wait_ret k) ::
          (completion_loop env loop_count batch_size i k batch_size.toNat 0
            ++ (drain_loop env loop_count batch_size fuel (i + batch_size) (k + 1)).2))
    else (none, [])

/-- Fuel of the drain loop.  An `int` counter moved by a non-zero step leaves
the `int` range within `2^32` steps, so this much fuel is used up only when
`batch_size` is `0` and the C loop does not end. -/
def DRAIN_FUEL : Nat := 4294967296

/-- The function `run_write_uring`; `loop_count` and `batch_size` are the
globals it reads. -/
def run_write_uring (loop_count batch_size : Int) (size : Nat) (sync : Int) (env : Env) :
    RunExit × List Event :=
  if env.open_ret < 0 then
    (.open_failed,
      [.open_file (decide (sync ≠ 0)) env.open_ret, .perror "Failed to open file"])
  else if env.queue_init_ret < 0 then
    (.queue_init_failed,
      [.open_file (decide (sync ≠ 0)) env.open_ret, .malloc size, .memset size,
        .queue_init (queue_size loop_count batch_size) env.queue_init_ret,
        .perror "Failed on io_uring_queue_init", .free, .close env.open_ret])
  else if (submission_loop env env.open_ret size loop_count.toNat 0).1 = false then
    (.no_sqe,
      [.open_file (decide (sync ≠ 0)) env.open_ret, .malloc size, .memset size,
        .queue_init (queue_size loop_count batch_size) env.queue_init_ret,
        .rdtsc env.start_cycles]
      ++ (submission_loop env env.open_ret size loop_count.toNat 0).2)
  else if env.submit_ret < 0 then
    (.submit_failed,
      [.open_file (decide (sync ≠ 0)) env.open_ret, .malloc size, .memset size,
        .queue_init (queue_size loop_count batch_size) env.queue_init_ret,
        .rdtsc env.start_cycles]
      ++ (submission_loop env env.open_ret size loop_count.toNat 0).2
      ++ [.submit env.submit_ret, .stderr "ERROR: io_uring_submit failed",
          .queue_exit, .free, .close env.open_ret])
  else
    match (drain_loop env loop_count batch_size DRAIN_FUEL 0 0).1 with
    | some e =>
      (e,
        [.open_file (decide (sync ≠ 0)) env.open_ret, .malloc size, .memset size,
          .queue_init (queue_size loop_count batch_size) env.queue_init_ret,
          .rdtsc env.start_cycles]
        ++ (submission_loop env env.open_ret size loop_count.toNat 0).2
        ++ [.submit env.submit_ret]
        ++ (drain_loop env loop_count batch_size DRAIN_FUEL 0 0).2)
    | none =>
      (.returned,
        [.open_file (decide (sync ≠ 0)) env.open_ret, .malloc size, .memset size,
          .queue_init (queue_size loop_count batch_size) env.queue_init_ret,
          .rdtsc env.start_cycles]
        ++ (submission_loop env env.open_ret size loop_count.toNat 0).2
        ++ [.submit env.submit_ret]
        ++ (drain_loop env loop_count batch_size DRAIN_FUEL 0 0).2
        ++ report true loop_count size sync env
        ++ [.queue_exit, .close env.open_ret, .free])

/-! ## Argument parsing and `main` -/

/-- The values `parse_arguments` leaves in `*size`, `loop_count`, `batch_size`
and `*sync`. -/
structure Config where
  size : Nat
  loop_count : Int
  batch_size : Int
  sync : Int
  deriving DecidableEq, Repr

/-- The function `parse_arguments`.  `a2`, ..., `a5` are the values `atoi`
returns for `argv[2]`, ..., `argv[5]` (read only when `argc` says they are
there); the globals start at `loop_count = 1`, `batch_size = 64`,
`sync_flag = 0`.  `Except.error (msg, status)` is `exit(status)` after `msg`
was written to stderr.  `*size` is a `size_t`, so `*size <= 0` is an unsigned
comparison. -/
def parse_arguments (argc : Nat) (a2 a3 a4 a5 : Int) : Except (String × Nat) Config :=
  if argc < 3 then
    .error ("Usage: <filename> <size> [loop_count] [batch_size] [sync]", 1)
  else if to_uint64 a2 ≤ 0 ∨ (if argc > 3 then a3 else 1) ≤ 0
      ∨ (if argc > 4 then a4 else 64) ≤ 0 then
    .error ("Invalid arguments. All sizes, loop_count, and batch_size must be positive integers.", 1)
  else
    .ok ⟨to_uint64 a2, if argc > 3 then a3 else 1, if argc > 4 then a4 else 64,
      if argc > 5 then a5 else 0⟩

/-- The function `main`: the exit status (`none` when `run_write_uring` does
not come back) and the trace of both backends; `env1` answers `run_write`,
`env2` answers `run_write_uring`. -/
def main (argc : Nat) (a2 a3 a4 a5 : Int) (env1 env2 : Env) : Option Nat × List Event :=
  match parse_arguments argc a2 a3 a4 a5 with
  | .error (msg, status) => (some status, [Event.stderr msg])
  | .ok cfg =>
    (if (run_write_uring cfg.loop_count cfg.batch_size cfg.size cfg.sync env2).1
          = RunExit.signed_overflow
        ∨ (run_write_uring cfg.loop_count cfg.batch_size cfg.size cfg.sync env2).1
          = RunExit.diverged
      then none else some 0,
      Event.printf_line "Running write..." ::
        (run_write cfg.loop_count cfg.size cfg.sync env1
          ++ Event.printf_line "Running write with io_uring..." ::
            (run_write_uring cfg.loop_count cfg.batch_size cfg.size cfg.sync env2).2))

/-- An environment in which every call succeeds: descriptor 3, full writes of
4096 bytes, some negative completion results. -/
def env_ok : Env where
  open_ret := 3
  random := fun i => (1103515245 * (i : Int) + 12345) % 2147483648
  pwrite_ret := fun _ => 4096
  queue_init_ret := 0
  get_sqe_ok := fun _ => true
  submit_ret := 0
  wait_ret := fun _ => 0
  cqe_res := fun k j => if (k + j) % 3 = 0 then -5 else 4096
  start_cycles := 1000
  end_cycles := 901000

/-- Like `env_ok`, but the queue hands out two slots only: the third
`io_uring_get_sqe` returns `NULL`. -/
def env_no_sqe : Env where
  open_ret := 3
  random := fun i => 7 * (i : Int)
  pwrite_ret := fun _ => 4096
  queue_init_ret := 0
  get_sqe_ok := fun i => decide (i < 2)
  submit_ret := 4
  wait_ret := fun _ => 0
  cqe_res := fun _ _ => 4096
  start_cycles := 10
  end_cycles := 50

/-- Like `env_ok`, but the second `io_uring_wait_cqes` fails with `-EINTR`. -/
def env_wait_fails : Env where
  open_ret := 3
  random := fun i => 7 * (i : Int)
  pwrite_ret := fun _ => 4096
  queue_init_ret := 0
  get_sqe_ok := fun _ => true
  submit_ret := 4
  wait_ret := fun k => if k = 1 then -4 else 0
  cqe_res := fun _ _ => 4096
  start_cycles := 10
  end_cycles := 50

/-- A queue of `depth` slots of which none is given back before the submit
call: the `i`-th acquisition finds `i` slots pending. -/
def env_bounded_queue (depth : Nat) : Env where
  open_ret := 3
  random := fun i => 7 * (i : Int)
  pwrite_ret := fun _ => 4096
  queue_init_ret := 0
  get_sqe_ok := fun i => decide (i < depth)
  submit_ret := 0
  wait_ret := fun _ => 0
  cqe_res := fun _ _ => 4096
  start_cycles := 10
  end_cycles := 50

/-- A failed write at iteration 1 and a short write at iteration 2. -/
def env_bad_writes : Env where
  open_ret := 3
  random := fun i => 7 * (i : Int)
  pwrite_ret := fun i => if i = 1 then -1 else if i = 2 then 100 else 4096
  queue_init_ret := 0
  get_sqe_ok := fun _ => true
  submit_ret := 0
  wait_ret := fun _ => 0
  cqe_res := fun _ _ => 4096
  start_cycles := 10
  end_cycles := 50

/-! ## Counting lemmas -/

@[simp] theorem count_tag_nil (t : Tag) : count_tag t [] = 0 := rfl

theorem count_tag_cons (t : Tag) (e : Event) (tr : List Event) :
    count_tag t (e :: tr) = (if e.tag = t then 1 else 0) + count_tag t tr := by
  unfold count_tag
  rw [List.countP_cons]
  by_cases h : e.tag = t <;> simp [h, Nat.add_comm]

@[simp] theorem count_tag_append (t : Tag) (a b : List Event) :
    count_tag t (a ++ b) = count_tag t a + count_tag t b := by
  unfold count_tag
  exact List.countP_append _ _ _

/-! ## The submission loop -/

theorem submission_loop_ok (env : Env) (fd : Int) (size : Nat) :
    ∀ n i, (∀ m, i ≤ m → m < i + n → env.get_sqe_ok m = true) →
      (submission_loop env fd size n i).1 = true := by
  intro n
  induction n with
  | zero => intro i _; rfl
  | succ n ih =>
    intro i h
    have h0 : env.get_sqe_ok i = true := h i (Nat.le_refl i) (by omega)
    simp only [submission_loop, h0, if_true]
    exact ih (i + 1) (fun m h1 h2 => h m (by omega) (by omega))

theorem submission_loop_count (env : Env) (fd : Int) (size : Nat) (t : Tag) :
    ∀ n i, (submission_loop env fd size n i).1 = true →
      count_tag t (submission_loop env fd size n i).2
        = if t = Tag.get_sqe ∨ t = Tag.prep_write then n else 0 := by
  intro n
  induction n with
  | zero => intro i _; simp [submission_loop]
  | succ n ih =>
    intro i h
    by_cases h0 : env.get_sqe_ok i = true
    · simp only [submission_loop, h0, if_true] at h ⊢
      rw [count_tag_cons, count_tag_cons, ih (i + 1) h]
      cases t <;> simp [Event.tag] <;> omega
    · simp [submission_loop, h0] at h

theorem submission_loop_sizes (env : Env) (fd : Int) (size : Nat) :
    ∀ n i, ∀ x ∈ prepared_sizes (submission_loop env fd size n i).2,
      x = to_uint32 (size : Int) := by
  intro n
  induction n with
  | zero => intro i x hx; simp [submission_loop, prepared_sizes] at hx
  | succ n ih =>
    intro i x hx
    by_cases h0 : env.get_sqe_ok i = true
    · simp only [submission_loop, h0, if_true, prepared_sizes, List.filterMap_cons] at hx
      rcases List.mem_cons.mp hx with h | h
      · exact h
      · exact ih (i + 1) x h
    · simp [submission_loop, h0, prepared_sizes] at hx

/-! ## The completion loop -/

theorem completion_loop_count (env : Env) (lc bs i : Int) (k : Nat) (t : Tag)
    (ht : t ≠ Tag.stderr) :
    ∀ fuel j, count_tag t (completion_loop env lc bs i k fuel j)
      = if t = Tag.cqe_seen then min fuel (min bs (lc - i) - (j : Int)).toNat else 0 := by
  intro fuel
  induction fuel with
  | zero => intro j; simp [completion_loop]
  | succ f ih =>
    intro j
    by_cases hc : (j : Int) < bs ∧ i + (j : Int) < lc
    · have hs : ∀ l : List Event,
          count_tag t ((if env.cqe_res k j < 0 then [Event.stderr "write (io_uring) failed"]
            else []) ++ l) = count_tag t l := by
        intro l
        by_cases hr : env.cqe_res k j < 0
        · simp [hr, count_tag_cons, Event.tag, Ne.symm ht]
        · simp [hr]
      simp only [completion_loop, hc, and_self, if_true]
      rw [hs, count_tag_cons, ih (j + 1)]
      by_cases h1 : t = Tag.cqe_seen
      · subst h1
        simp only [Event.tag, if_true]
        have := hc.1; have := hc.2
        push_cast
        omega
      · simp [h1, Event.tag, Ne.symm h1]
    · simp only [completion_loop, hc, if_false, count_tag_nil]
      by_cases h1 : t = Tag.cqe_seen
      · simp only [h1, if_true]
        have : (min bs (lc - i) - (j : Int)).toNat = 0 := by
          rw [not_and_or] at hc
          omega
        rw [this]; simp
      · simp [h1]

/-! ## The drain loop -/

/-- The drain loop from counter `i` with `g` groups left: whether or not the
last `i += batch_size` stays in the `int` range, the loop makes `g` wait calls
and marks the `loop_count - i` completions that remain; it ends through its
condition when the counter stays in range. -/
theorem drain_loop_count (env : Env) (lc bs : Int) (t : Tag) (ht : t ≠ Tag.stderr)
    (hbs : 1 ≤ bs) (hlc2 : lc ≤ INT_MAX) :
    ∀ (g fuel : Nat) (i : Int) (k : Nat), g ≤ fuel → 0 ≤ i →
      (∀ m, k ≤ m → m < k + g → 0 ≤ env.wait_ret m) →
      ((g : Int) - 1) * bs < lc - i → lc - i ≤ (g : Int) * bs →
      ((drain_loop env lc bs fuel i k).1 = none
        ∨ (drain_loop env lc bs fuel i k).1 = some RunExit.signed_overflow) ∧
      (i + (g : Int) * bs ≤ INT_MAX → (drain_loop env lc bs fuel i k).1 = none) ∧
      count_tag t (drain_loop env lc bs fuel i k).2
        = if t = Tag.wait_cqes then g
          else if t = Tag.cqe_seen then (lc - i).toNat else 0 := by
  intro g
  induction g with
  | zero =>
    intro fuel i k _ _ _ _ h2
    have hi : ¬ i < lc := by simp at h2; omega
    have h0 : (lc - i).toNat = 0 := by omega
    cases fuel <;> simp [drain_loop, hi, h0]
  | succ g ih =>
    intro fuel i k hf hi hw h1 h2
    obtain ⟨f, rfl⟩ : ∃ f, fuel = f + 1 := ⟨fuel - 1, by omega⟩
    have hg : (0 : Int) ≤ (g : Int) * bs := by positivity
    have e1 : ((g + 1 : Nat) : Int) * bs = (g : Int) * bs + bs := by push_cast; ring
    have e2 : (((g + 1 : Nat) : Int) - 1) * bs = (g : Int) * bs := by push_cast; ring
    rw [e1] at h2
    rw [e2] at h1
    have hlt : i < lc := by omega
    have hwk : ¬ env.wait_ret k < 0 := not_lt.mpr (hw k (le_refl k) (by omega))
    by_cases hov : INT_MAX < i + bs ∨ i + bs < INT_MIN
    · have hov2 : INT_MAX < i + bs := by
        rcases hov with h | h
        · exact h
        · unfold INT_MIN at h; omega
      have hg0 : g = 0 := by
        by_contra hne
        have h1g : (1 : Int) ≤ (g : Int) := by
          have : 1 ≤ g := Nat.one_le_iff_ne_zero.mpr hne
          exact_mod_cast this
        have : bs ≤ (g : Int) * bs := by nlinarith
        omega
      subst hg0
      simp only [drain_loop, hlt, hwk, hov, if_true, if_false]
      refine ⟨by simp, ?_, ?_⟩
      · intro h3
        rw [e1] at h3
        omega
      · rw [count_tag_cons, completion_loop_count env lc bs i k t ht]
        by_cases c1 : t = Tag.wait_cqes
        · subst c1; simp [Event.tag]
        · by_cases c2 : t = Tag.cqe_seen
          · subst c2
            simp [Event.tag]
            omega
          · simp [c1, c2, Event.tag, Ne.symm c1]
    · have e3 : ((g : Int) - 1) * bs = (g : Int) * bs - bs := by ring
      obtain ⟨r1, r2, r3⟩ := ih f (i + bs) (k + 1) (by omega) (by omega)
        (fun m m1 m2 => hw m (by omega) (by omega))
        (by rw [e3]; omega) (by omega)
      simp only [drain_loop, hlt, hwk, hov, if_true, if_false]
      refine ⟨r1, ?_, ?_⟩
      · intro h3
        rw [e1] at h3
        exact r2 (by omega)
      · rw [count_tag_cons, count_tag_append, r3, completion_loop_count env lc bs i k t ht]
        by_cases c1 : t = Tag.wait_cqes
        · subst c1; simp [Event.tag]; omega
        · by_cases c2 : t = Tag.cqe_seen
          · subst c2
            simp [Event.tag]
            omega
          · simp [c1, c2, Event.tag, Ne.symm c1]

/-- The quotient `(lc + bs - 1) / bs` is the least `g` with `lc ≤ g * bs`. -/
theorem ceil_div_spec (lc bs : Int) (hbs : 1 ≤ bs) :
    ((lc + bs - 1) / bs - 1) * bs < lc ∧ lc ≤ (lc + bs - 1) / bs * bs := by
  have h1 := Int.emod_add_ediv (lc + bs - 1) bs
  have h2 := Int.emod_nonneg (lc + bs - 1) (by omega : bs ≠ 0)
  have h3 := Int.emod_lt_of_pos (lc + bs - 1) (by omega : 0 < bs)
  have h4 : ((lc + bs - 1) / bs - 1) * bs = bs * ((lc + bs - 1) / bs) - bs := by ring
  have h5 : (lc + bs - 1) / bs * bs = bs * ((lc + bs - 1) / bs) := by ring
  rw [h4, h5]
  constructor <;> omega

theorem ceil_div_pos (lc bs : Int) (hlc : 1 ≤ lc) (hbs : 1 ≤ bs) :
    1 ≤ (lc + bs - 1) / bs ∧ (lc + bs - 1) / bs ≤ lc := by
  constructor
  · exact Int.le_ediv_of_mul_le (by omega) (by omega)
  · have : (lc + bs - 1) / bs ≤ (lc * bs) / bs := by
      apply Int.ediv_le_ediv (by omega)
      nlinarith
    rwa [Int.mul_ediv_cancel _ (by omega : bs ≠ 0)] at this

theorem drain_loop_run (env : Env) (lc bs : Int) (t : Tag) (ht : t ≠ Tag.stderr)
    (hlc : 1 ≤ lc) (hlc2 : lc ≤ INT_MAX) (hbs : 1 ≤ bs)
    (hw : ∀ k : Nat, (k : Int) < (lc + bs - 1) / bs → 0 ≤ env.wait_ret k) :
    ((drain_loop env lc bs DRAIN_FUEL 0 0).1 = none
      ∨ (drain_loop env lc bs DRAIN_FUEL 0 0).1 = some RunExit.signed_overflow) ∧
    (bs * ((lc + bs - 1) / bs) ≤ INT_MAX → (drain_loop env lc bs DRAIN_FUEL 0 0).1 = none) ∧
      count_tag t (drain_loop env lc bs DRAIN_FUEL 0 0).2
        = if t = Tag.wait_cqes then ((lc + bs - 1) / bs).toNat
          else if t = Tag.cqe_seen then lc.toNat else 0 := by
  obtain ⟨p1, p2⟩ := ceil_div_pos lc bs hlc hbs
  obtain ⟨s1, s2⟩ := ceil_div_spec lc bs hbs
  have hc : (((lc + bs - 1) / bs).toNat : Int) = (lc + bs - 1) / bs :=
    Int.toNat_of_nonneg (by omega)
  obtain ⟨q1, q2, q3⟩ :=
    drain_loop_count env lc bs t ht hbs hlc2 ((lc + bs - 1) / bs).toNat DRAIN_FUEL 0 0
      (by unfold DRAIN_FUEL; unfold INT_MAX at hlc2; omega) (le_refl 0)
      (fun m _ m2 => hw m (by omega))
      (by rw [hc]; simpa using s1) (by rw [hc]; simpa using s2)
  refine ⟨q1, ?_, by simpa using q3⟩
  intro hov
  exact q2 (by rw [hc, mul_comm]; simpa using hov)

/-! ## Claims about `run_write_uring` -/

/-- C1: for every `loop_count ≥ 1` and `batch_size ≥ 1` (`int`s), a run of
`run_write_uring` in which open, queue init, each of the `loop_count` slot
acquisitions, submit and each of the `ceil(loop_count / batch_size)` wait calls
succeed prepares exactly `loop_count` writes, makes exactly one submit call,
makes exactly `ceil(loop_count / batch_size)` wait calls and marks exactly
`loop_count` completions as seen, whatever the completion result codes are.
The run returns at the end of the function whenever the counter of the drain
loop, which ends at `batch_size * ceil(loop_count / batch_size)`, is an `int`;
otherwise the only other way it ends is at that last increment, after the
same calls. -/
theorem run_write_uring_counts (lc bs : Int) (size : Nat) (sync : Int) (env : Env)
    (hlc : 1 ≤ lc) (hlc2 : lc ≤ INT_MAX) (hbs : 1 ≤ bs)
    (hopen : 0 ≤ env.open_ret) (hq : 0 ≤ env.queue_init_ret)
    (hsqe : ∀ i : Nat, (i : Int) < lc → env.get_sqe_ok i = true)
    (hsub : 0 ≤ env.submit_ret)
    (hw : ∀ k : Nat, (k : Int) < (lc + bs - 1) / bs → 0 ≤ env.wait_ret k) :
    (count_tag Tag.prep_write (run_write_uring lc bs size sync env).2 : Int) = lc ∧
    count_tag Tag.submit (run_write_uring lc bs size sync env).2 = 1 ∧
    (count_tag Tag.wait_cqes (run_write_uring lc bs size sync env).2 : Int)
      = (lc + bs - 1) / bs ∧
    (count_tag Tag.cqe_seen (run_write_uring lc bs size sync env).2 : Int) = lc ∧
    ((run_write_uring lc bs size sync env).1 = RunExit.returned
      ∨ (run_write_uring lc bs size sync env).1 = RunExit.signed_overflow) ∧
    (bs * ((lc + bs - 1) / bs) ≤ INT_MAX →
      (run_write_uring lc bs size sync env).1 = RunExit.returned) := by
  obtain ⟨p1, p2⟩ := ceil_div_pos lc bs hlc hbs
  have hs : (submission_loop env env.open_ret size lc.toNat 0).1 = true :=
    submission_loop_ok env env.open_ret size lc.toNat 0 (fun m _ _ => hsqe m (by omega))
  have hd : ∀ t, t ≠ Tag.stderr → _ :=
    fun t ht => drain_loop_run env lc bs t ht hlc hlc2 hbs hw
  have hd1 := (hd Tag.wait_cqes (by decide)).1
  have hd2 := (hd Tag.wait_cqes (by decide)).2.1
  have c1 : (lc.toNat : Int) = lc := Int.toNat_of_nonneg (by omega)
  have c2 : (((lc + bs - 1) / bs).toNat : Int) = (lc + bs - 1) / bs :=
    Int.toNat_of_nonneg (by omega)
  have n1 : ¬ env.open_ret < 0 := not_lt.mpr hopen
  have n2 : ¬ env.queue_init_ret < 0 := not_lt.mpr hq
  have n3 : ¬ env.submit_ret < 0 := not_lt.mpr hsub
  have hrun : ∀ o, (drain_loop env lc bs DRAIN_FUEL 0 0).1 = o →
      run_write_uring lc bs size sync env =
      match o with
      | some e =>
        (e,
          [.open_file (decide (sync ≠ 0)) env.open_ret, .malloc size, .memset size,
            .queue_init (queue_size lc bs) env.queue_init_ret,
            .rdtsc env.start_cycles]
          ++ (submission_loop env env.open_ret size lc.toNat 0).2
          ++ [.submit env.submit_ret]
          ++ (drain_loop env lc bs DRAIN_FUEL 0 0).2)
      | none =>
        (RunExit.returned,
          [.open_file (decide (sync ≠ 0)) env.open_ret, .malloc size, .memset size,
            .queue_init (queue_size lc bs) env.queue_init_ret,
            .rdtsc env.start_cycles]
          ++ (submission_loop env env.open_ret size lc.toNat 0).2
          ++ [.submit env.submit_ret]
          ++ (drain_loop env lc bs DRAIN_FUEL 0 0).2
          ++ report true lc size sync env
          ++ [.queue_exit, .close env.open_ret, .free]) := by
    intro o ho
    unfold run_write_uring
    simp only [n1, n2, n3, hs, if_false, ho]
    simp
  have hcounts : ∀ o, (drain_loop env lc bs DRAIN_FUEL 0 0).1 = o →
      (o = none ∨ o = some RunExit.signed_overflow) →
      (count_tag Tag.prep_write (run_write_uring lc bs size sync env).2 : Int) = lc ∧
      count_tag Tag.submit (run_write_uring lc bs size sync env).2 = 1 ∧
      (count_tag Tag.wait_cqes (run_write_uring lc bs size sync env).2 : Int)
        = (lc + bs - 1) / bs ∧
      (count_tag Tag.cqe_seen (run_write_uring lc bs size sync env).2 : Int) = lc ∧
      ((run_write_uring lc bs size sync env).1 = RunExit.returned
        ∨ (run_write_uring lc bs size sync env).1 = RunExit.signed_overflow) := by
    intro o ho hcase
    rw [hrun o ho]
    rcases hcase with h | h <;> subst h
    · refine ⟨?_, ?_, ?_, ?_, Or.inl rfl⟩
      · simp [count_tag_cons, Event.tag, report,
          submission_loop_count env env.open_ret size _ _ _ hs,
          (hd Tag.prep_write (by decide)).2.2, c1]
      · simp [count_tag_cons, Event.tag, report,
          submission_loop_count env env.open_ret size _ _ _ hs,
          (hd Tag.submit (by decide)).2.2]
      · simp [count_tag_cons, Event.tag, report,
          submission_loop_count env env.open_ret size _ _ _ hs,
          (hd Tag.wait_cqes (by decide)).2.2, c2]
      · simp [count_tag_cons, Event.tag, report,
          submission_loop_count env env.open_ret size _ _ _ hs,
          (hd Tag.cqe_seen (by decide)).2.2, c1]
    · refine ⟨?_, ?_, ?_, ?_, Or.inr rfl⟩
      · simp [count_tag_cons, Event.tag,
          submission_loop_count env env.open_ret size _ _ _ hs,
          (hd Tag.prep_write (by decide)).2.2, c1]
      · simp [count_tag_cons, Event.tag,
          submission_loop_count env env.open_ret size _ _ _ hs,
          (hd Tag.submit (by decide)).2.2]
      · simp [count_tag_cons, Event.tag,
          submission_loop_count env env.open_ret size _ _ _ hs,
          (hd Tag.wait_cqes (by decide)).2.2, c2]
      · simp [count_tag_cons, Event.tag,
          submission_loop_count env env.open_ret size _ _ _ hs,
          (hd Tag.cqe_seen (by decide)).2.2, c1]
  obtain ⟨k1, k2, k3, k4, k5⟩ := hcounts _ rfl hd1
  refine ⟨k1, k2, k3, k4, k5, ?_⟩
  intro hov
  rw [hrun none (hd2 hov)]

/-- C1 (instance): scenario B of the specification, `loop_count = 100` and
`batch_size = 16`: 100 prepared writes, one submit, 7 wait calls, 100
completions marked seen, and the run returns. -/
theorem run_write_uring_counts_witness :
    (count_tag Tag.prep_write (run_write_uring 100 16 4096 0 env_ok).2 : Int) = 100 ∧
    count_tag Tag.submit (run_write_uring 100 16 4096 0 env_ok).2 = 1 ∧
    (count_tag Tag.wait_cqes (run_write_uring 100 16 4096 0 env_ok).2 : Int)
      = (100 + 16 - 1) / 16 ∧
    (count_tag Tag.cqe_seen (run_write_uring 100 16 4096 0 env_ok).2 : Int) = 100 ∧
    ((run_write_uring 100 16 4096 0 env_ok).1 = RunExit.returned
      ∨ (run_write_uring 100 16 4096 0 env_ok).1 = RunExit.signed_overflow) ∧
    ((16 : Int) * ((100 + 16 - 1) / 16) ≤ INT_MAX →
      (run_write_uring 100 16 4096 0 env_ok).1 = RunExit.returned) :=
  run_write_uring_counts 100 16 4096 0 env_ok (by decide) (by decide) (by decide)
    (by decide) (by decide) (fun _ _ => rfl) (by decide) (fun _ _ => le_refl 0)

/-- Every wait call of the drain loop asks for `(uint32_t)batch_size`
completions, in the last group as in the others. -/
theorem drain_loop_wait_requests (env : Env) (lc bs : Int) :
    ∀ (fuel : Nat) (i : Int) (k : Nat),
      ∀ x ∈ wait_requests (drain_loop env lc bs fuel i k).2, x = to_uint32 bs := by
  have hc : ∀ (f j : Nat) (i : Int) (k : Nat),
      wait_requests (completion_loop env lc bs i k f j) = [] := by
    intro f
    induction f with
    | zero => intro j i k; rfl
    | succ f ih =>
      intro j i k
      have ih2 := ih (j + 1) i k
      unfold wait_requests at ih2 ⊢
      by_cases h : (j : Int) < bs ∧ i + (j : Int) < lc
      · by_cases hr : env.cqe_res k j < 0 <;> simp [completion_loop, h, hr, ih2]
      · simp [completion_loop, h]
  intro fuel
  induction fuel with
  | zero =>
    intro i k x hx
    by_cases h : i < lc <;> simp [drain_loop, h, wait_requests] at hx
  | succ f ih =>
    intro i k x hx
    have ih2 := ih (i + bs) (k + 1) x
    have hc2 := hc bs.toNat 0 i k
    unfold wait_requests at ih2 hc2 hx
    by_cases h1 : i < lc
    · by_cases h2 : env.wait_ret k < 0
      · simp [drain_loop, h1, h2] at hx
        exact hx
      · by_cases h3 : INT_MAX < i + bs ∨ i + bs < INT_MIN
        · simp only [drain_loop, h1, h2, h3, if_true, if_false, List.filterMap_cons, hc2] at hx
          simpa using hx
        · simp only [drain_loop, h1, h2, h3, if_true, if_false, List.filterMap_cons,
            List.filterMap_append, hc2, List.nil_append] at hx
          rcases List.mem_cons.mp hx with h | h
          · exact h
          · exact ih2 h
    · simp [drain_loop, h1] at hx

/-- C2 (the code at the failing input): with `loop_count = 100` and
`batch_size = 16` the seven wait calls of `run_write_uring` all ask for 16
completions; the last one does not ask for the 4 that remain. -/
theorem wait_requests_100_16 :
    (run_write_uring 100 16 4096 0 env_ok).1 = RunExit.returned ∧
    wait_requests (run_write_uring 100 16 4096 0 env_ok).2 = [16, 16, 16, 16, 16, 16, 16] ∧
    wait_requests (run_write_uring 100 16 4096 0 env_ok).2 ≠ [16, 16, 16, 16, 16, 16, 4] := by
  decide

/-! ## Claims about `run_write` -/

theorem write_body_count (env : Env) (fd : Int) (size : Nat) (i : Nat) :
    count_tag Tag.pwrite (write_body env fd size i) = 1 := by
  unfold write_body
  split_ifs <;> simp [count_tag_cons, Event.tag]

theorem write_loop_count (env : Env) (fd : Int) (size : Nat) (l : List Nat) :
    count_tag Tag.pwrite (l.flatMap (write_body env fd size)) = l.length := by
  induction l with
  | nil => rfl
  | cons a l ih =>
    rw [List.flatMap_cons, count_tag_append, write_body_count, ih, List.length_cons]
    omega

theorem write_loop_sizes (env : Env) (fd : Int) (size : Nat) (l : List Nat) :
    ∀ x ∈ pwrite_sizes (l.flatMap (write_body env fd size)), x = size := by
  induction l with
  | nil => intro x hx; simp [pwrite_sizes] at hx
  | cons a l ih =>
    intro x hx
    unfold pwrite_sizes at ih hx
    rw [List.flatMap_cons, List.filterMap_append] at hx
    rcases List.mem_append.mp hx with h | h
    · unfold write_body at h
      split_ifs at h <;> simpa using h
    · exact ih x h

/-- C3: for `loop_count ≥ 1` and any results of the `pwrite` calls, a run of
`run_write` whose `open` succeeded is: the set-up, then a loop part holding
exactly `loop_count` `pwrite` calls, each of `size` bytes, then the counter
read and the two metric lines, then `close` and `free`.  No write result ends
the loop early. -/
theorem run_write_all_iterations (lc : Int) (size : Nat) (sync : Int) (env : Env)
    (hlc : 1 ≤ lc) (hopen : 0 ≤ env.open_ret) :
    (count_tag Tag.pwrite (run_write lc size sync env) : Int) = lc ∧
    (∀ x ∈ pwrite_sizes (run_write lc size sync env), x = size) ∧
    ∃ body : List Event,
      (count_tag Tag.pwrite body : Int) = lc ∧
      run_write lc size sync env =
        [.open_file (decide (sync ≠ 0)) env.open_ret, .malloc size, .memset size,
          .rdtsc env.start_cycles]
        ++ body
        ++ [.rdtsc env.end_cycles,
            .printf_total false (decide (sync ≠ 0))
              (total_cycles env.start_cycles env.end_cycles),
            .printf_cpb false (decide (sync ≠ 0))
              (cycles_per_byte (total_cycles env.start_cycles env.end_cycles) size lc),
            .close env.open_ret, .free] := by
  have n1 : ¬ env.open_ret < 0 := not_lt.mpr hopen
  have c1 : (lc.toNat : Int) = lc := Int.toNat_of_nonneg (by omega)
  have hb := write_loop_count env env.open_ret size (List.range lc.toNat)
  rw [List.length_range] at hb
  refine ⟨?_, ?_, (List.range lc.toNat).flatMap (write_body env env.open_ret size), ?_, ?_⟩
  · simp [run_write, n1, count_tag_cons, Event.tag, report, hb, c1]
  · intro x hx
    apply write_loop_sizes env env.open_ret size (List.range lc.toNat) x
    simpa [run_write, n1, pwrite_sizes, report, List.filterMap_append] using hx
  · rw [hb, c1]
  · simp [run_write, n1, report]

/-- C3 (instance): scenario D of the specification, five iterations of which
one write fails and one is short. -/
theorem run_write_all_iterations_witness :
    (count_tag Tag.pwrite (run_write 5 4096 0 env_bad_writes) : Int) = 5 ∧
    (∀ x ∈ pwrite_sizes (run_write 5 4096 0 env_bad_writes), x = 4096) ∧
    ∃ body : List Event,
      (count_tag Tag.pwrite body : Int) = 5 ∧
      run_write 5 4096 0 env_bad_writes =
        [.open_file (decide ((0 : Int) ≠ 0)) env_bad_writes.open_ret, .malloc 4096,
          .memset 4096, .rdtsc env_bad_writes.start_cycles]
        ++ body
        ++ [.rdtsc env_bad_writes.end_cycles,
            .printf_total false (decide ((0 : Int) ≠ 0))
              (total_cycles env_bad_writes.start_cycles env_bad_writes.end_cycles),
            .printf_cpb false (decide ((0 : Int) ≠ 0))
              (cycles_per_byte
                (total_cycles env_bad_writes.start_cycles env_bad_writes.end_cycles) 4096 5),
            .close env_bad_writes.open_ret, .free] :=
  run_write_all_iterations 5 4096 0 env_bad_writes (by decide) (by decide)

/-! ## Resources of `run_write_uring` -/

theorem drain_loop_exits (env : Env) (lc bs : Int) :
    ∀ (fuel : Nat) (i : Int) (k : Nat),
      (drain_loop env lc bs fuel i k).1 = none
      ∨ (drain_loop env lc bs fuel i k).1 = some RunExit.wait_failed
      ∨ (drain_loop env lc bs fuel i k).1 = some RunExit.signed_overflow
      ∨ (drain_loop env lc bs fuel i k).1 = some RunExit.diverged := by
  intro fuel
  induction fuel with
  | zero => intro i k; by_cases h : i < lc <;> simp [drain_loop, h]
  | succ f ih =>
    intro i k
    by_cases h1 : i < lc
    · by_cases h2 : env.wait_ret k < 0
      · simp [drain_loop, h1, h2]
      · by_cases h3 : INT_MAX < i + bs ∨ i + bs < INT_MIN
        · simp [drain_loop, h1, h2, h3]
        · simpa only [drain_loop, h1, h2, h3, if_true, if_false] using ih (i + bs) (k + 1)
    · simp [drain_loop, h1]

/-- On the exits through a failed `open`, a failed queue init, a failed submit
and the end of the function, what `run_write_uring` acquired is released. -/
theorem run_write_uring_releases (lc bs : Int) (size : Nat) (sync : Int) (env : Env)
    (h : (run_write_uring lc bs size sync env).1 = RunExit.open_failed
      ∨ (run_write_uring lc bs size sync env).1 = RunExit.queue_init_failed
      ∨ (run_write_uring lc bs size sync env).1 = RunExit.submit_failed
      ∨ (run_write_uring lc bs size sync env).1 = RunExit.returned) :
    (acquired_fd (run_write_uring lc bs size sync env).2 = true →
      released_fd (run_write_uring lc bs size sync env).2 = true) ∧
    (acquired_buffer (run_write_uring lc bs size sync env).2 = true →
      released_buffer (run_write_uring lc bs size sync env).2 = true) ∧
    (acquired_ring (run_write_uring lc bs size sync env).2 = true →
      released_ring (run_write_uring lc bs size sync env).2 = true) := by
  unfold run_write_uring at h ⊢
  by_cases n1 : env.open_ret < 0
  · simp [n1, acquired_fd, acquired_buffer, acquired_ring, count_tag_cons, Event.tag]
  · by_cases n2 : env.queue_init_ret < 0
    · simp [n1, n2, acquired_ring, released_fd, released_buffer, count_tag_cons, Event.tag]
    · by_cases n3 : (submission_loop env env.open_ret size lc.toNat 0).1 = false
      · simp [n1, n2, n3] at h
      · by_cases n4 : env.submit_ret < 0
        · simp [n1, n2, n3, n4, released_fd, released_buffer, released_ring,
            count_tag_cons, Event.tag]
        · rcases drain_loop_exits env lc bs DRAIN_FUEL 0 0 with hd | hd | hd | hd
          · simp [n1, n2, n3, n4, hd, released_fd, released_buffer, released_ring,
              count_tag_cons, Event.tag]
          all_goals simp [n1, n2, n3, n4, hd] at h

/-- C4 (the code at two failing inputs): when the third slot acquisition
fails, and when the second wait call fails, `run_write_uring` returns holding
the descriptor, the buffer and the queue pair it acquired; none of `close`,
`free` and `io_uring_queue_exit` is called. -/
theorem run_write_uring_leaks :
    ((run_write_uring 4 2 4096 0 env_no_sqe).1 = RunExit.no_sqe ∧
      acquired_fd (run_write_uring 4 2 4096 0 env_no_sqe).2 = true ∧
      acquired_buffer (run_write_uring 4 2 4096 0 env_no_sqe).2 = true ∧
      acquired_ring (run_write_uring 4 2 4096 0 env_no_sqe).2 = true ∧
      released_fd (run_write_uring 4 2 4096 0 env_no_sqe).2 = false ∧
      released_buffer (run_write_uring 4 2 4096 0 env_no_sqe).2 = false ∧
      released_ring (run_write_uring 4 2 4096 0 env_no_sqe).2 = false) ∧
    ((run_write_uring 4 2 4096 0 env_wait_fails).1 = RunExit.wait_failed ∧
      acquired_fd (run_write_uring 4 2 4096 0 env_wait_fails).2 = true ∧
      acquired_buffer (run_write_uring 4 2 4096 0 env_wait_fails).2 = true ∧
      acquired_ring (run_write_uring 4 2 4096 0 env_wait_fails).2 = true ∧
      released_fd (run_write_uring 4 2 4096 0 env_wait_fails).2 = false ∧
      released_buffer (run_write_uring 4 2 4096 0 env_wait_fails).2 = false ∧
      released_ring (run_write_uring 4 2 4096 0 env_wait_fails).2 = false) := by
  decide

/-! ## Argument validation -/

/-- What `parse_arguments` tests: it exits (always with status 1) exactly when
`(size_t)atoi(argv[2])` is `0` or one of the two counts is not positive. -/
theorem parse_arguments_exits_iff (argc : Nat) (a2 a3 a4 a5 : Int) (hargc : 3 ≤ argc) :
    (∃ msg, parse_arguments argc a2 a3 a4 a5 = Except.error (msg, 1)) ↔
      (to_uint64 a2 = 0 ∨ (if argc > 3 then a3 else 1) ≤ 0
        ∨ (if argc > 4 then a4 else 64) ≤ 0) := by
  have h0 : ¬ argc < 3 := by omega
  unfold parse_arguments
  by_cases h : to_uint64 a2 ≤ 0 ∨ (if argc > 3 then a3 else 1) ≤ 0
      ∨ (if argc > 4 then a4 else 64) ≤ 0
  · simp only [h0, h, if_true, if_false]
    simp only [Nat.le_zero] at h
    simp [h]
  · simp only [h0, h, if_false]
    simp only [Nat.le_zero] at h
    simp [h]

/-- C5 (the code at the failing input): for the arguments `<file> -1`, where
`atoi` yields `-1`, `parse_arguments` does not exit: `(size_t)(-1)` is
`2^64 - 1`, which the unsigned test `*size <= 0` lets through, and `main` goes
on to announce the first backend.  A size of `0` is rejected with status 1
before any backend event. -/
theorem parse_arguments_accepts_negative_size :
    parse_arguments 3 (-1) 0 0 0 = Except.ok ⟨18446744073709551615, 1, 64, 0⟩ ∧
    (main 3 (-1) 0 0 0 env_ok env_ok).2.head? = some (Event.printf_line "Running write...") ∧
    (main 3 0 0 0 0 env_ok env_ok).1 = some 1 ∧
    count_tag Tag.open_file (main 3 0 0 0 0 env_ok env_ok).2 = 0 :=
  ⟨by rfl, by rfl, by rfl, by rfl⟩

/-! ## Offsets -/

theorem get_random_offset_eq (r : Int) (h0 : 0 ≤ r) :
    get_random_offset r = r % 1073741824 := by
  unfold get_random_offset TARGET_FILE_SIZE
  rw [Int.tmod_eq_emod h0 (by norm_num)]
  norm_num

/-- C6: for every value `r` of `random()`'s range, `get_random_offset` yields
`r mod TARGET_FILE_SIZE`, an offset in `[0, TARGET_FILE_SIZE)`; the macro's
expression evaluates in `int` arithmetic, without overflow, to `2^30`. -/
theorem get_random_offset_range (r : Int) (h0 : 0 ≤ r) (_h1 : r ≤ 2 ^ 31 - 1) :
    get_random_offset r = r % TARGET_FILE_SIZE ∧
    0 ≤ get_random_offset r ∧ get_random_offset r < TARGET_FILE_SIZE ∧
    TARGET_FILE_SIZE = 2 ^ 30 ∧ TARGET_FILE_SIZE = 1073741824 ∧
    TARGET_FILE_SIZE_expr = some TARGET_FILE_SIZE ∧ TARGET_FILE_SIZE ≤ INT_MAX := by
  have e := get_random_offset_eq r h0
  have t : TARGET_FILE_SIZE = 1073741824 := by unfold TARGET_FILE_SIZE; norm_num
  refine ⟨by rw [e, t], by rw [e]; omega, by rw [e, t]; omega, by rw [t]; norm_num, t,
    by decide, by decide⟩

/-- C6 (instance): the largest value of `random()`. -/
theorem get_random_offset_range_witness :
    get_random_offset 2147483647 = 2147483647 % TARGET_FILE_SIZE ∧
    0 ≤ get_random_offset 2147483647 ∧ get_random_offset 2147483647 < TARGET_FILE_SIZE ∧
    TARGET_FILE_SIZE = 2 ^ 30 ∧ TARGET_FILE_SIZE = 1073741824 ∧
    TARGET_FILE_SIZE_expr = some TARGET_FILE_SIZE ∧ TARGET_FILE_SIZE ≤ INT_MAX :=
  get_random_offset_range 2147483647 (by decide) (by decide)

/-- C9: every offset `v` of `[0, TARGET_FILE_SIZE)` is the image under
`get_random_offset` of exactly two values of `random()`'s range
`[0, 2^31 - 1]` (namely `v` and `v + 2^30`), so the reduction favours no offset. -/
theorem get_random_offset_uniform (v : Int) (h0 : 0 ≤ v) (h1 : v < TARGET_FILE_SIZE) :
    preimage_count v = 2 := by
  have t : TARGET_FILE_SIZE = 1073741824 := by unfold TARGET_FILE_SIZE; norm_num
  rw [t] at h1
  have hs : (Finset.range 2147483648).filter
      (fun r : Nat => get_random_offset (r : Int) = v)
      = {v.toNat, v.toNat + 1073741824} := by
    ext r
    simp only [Finset.mem_filter, Finset.mem_range, Finset.mem_insert, Finset.mem_singleton]
    rw [get_random_offset_eq (r : Int) (by omega)]
    constructor
    · rintro ⟨a, b⟩; omega
    · rintro (a | a) <;> subst a <;> constructor <;> omega
  unfold preimage_count
  rw [hs, Finset.card_pair (by omega)]

/-- C9 (instance): the offset 5 has exactly two preimages. -/
theorem get_random_offset_uniform_witness : preimage_count 5 = 2 :=
  get_random_offset_uniform 5 (by decide) (by decide)

/-! ## Queue depth -/

theorem submission_loop_no_failure (env : Env) (fd : Int) (size : Nat) :
    ∀ n i, (submission_loop env fd size n i).1 = true →
      Event.get_sqe false ∉ (submission_loop env fd size n i).2 := by
  intro n
  induction n with
  | zero => intro i _; simp [submission_loop]
  | succ n ih =>
    intro i h
    by_cases h0 : env.get_sqe_ok i = true
    · simp only [submission_loop, h0, if_true] at h ⊢
      simp only [List.mem_cons, not_or]
      exact ⟨by simp, by simp, ih (i + 1) h⟩
    · simp [submission_loop, h0] at h

/-- C7: for `loop_count ≥ 1` and `batch_size ≥ 1` (both `int`s) the depth
handed to `io_uring_queue_init` is `max(batch_size, loop_count)`, which is at
least `loop_count`; and when the queue hands out a slot to every acquisition
that finds fewer than `depth` slots pending (the `i`-th acquisition finds `i`
pending, nothing being submitted before the loop ends), no acquisition fails:
the run does not take the queue-exhaustion return. -/
theorem queue_depth_suffices (lc bs : Int) (size : Nat) (sync : Int) (env : Env)
    (hlc : 1 ≤ lc) (hlc2 : lc ≤ INT_MAX) (hbs : 1 ≤ bs) (hbs2 : bs ≤ INT_MAX)
    (hopen : 0 ≤ env.open_ret) (hq : 0 ≤ env.queue_init_ret)
    (hqueue : ∀ i, i < queue_size lc bs → env.get_sqe_ok i = true) :
    (queue_size lc bs : Int) = max bs lc ∧
    lc ≤ (queue_size lc bs : Int) ∧
    Event.queue_init (queue_size lc bs) env.queue_init_ret
      ∈ (run_write_uring lc bs size sync env).2 ∧
    (submission_loop env env.open_ret size lc.toNat 0).1 = true ∧
    (run_write_uring lc bs size sync env).1 ≠ RunExit.no_sqe ∧
    Event.get_sqe false ∉ (submission_loop env env.open_ret size lc.toNat 0).2 := by
  have hqs : (queue_size lc bs : Int) = max bs lc := by
    unfold queue_size to_uint32
    unfold INT_MAX at hlc2 hbs2
    split_ifs with h
    · rw [max_eq_left (by omega)]; omega
    · rw [max_eq_right (by omega)]; omega
  have hle : lc ≤ (queue_size lc bs : Int) := by rw [hqs]; exact le_max_right _ _
  have hs : (submission_loop env env.open_ret size lc.toNat 0).1 = true :=
    submission_loop_ok env env.open_ret size lc.toNat 0
      (fun m _ h2 => hqueue m (by omega))
  have n1 : ¬ env.open_ret < 0 := not_lt.mpr hopen
  have n2 : ¬ env.queue_init_ret < 0 := not_lt.mpr hq
  refine ⟨hqs, hle, ?_, hs, ?_, ?_⟩
  · unfold run_write_uring
    simp only [n1, n2, hs, if_false]
    by_cases n4 : env.submit_ret < 0
    · simp [n4]
    · cases hd : (drain_loop env lc bs DRAIN_FUEL 0 0).1 <;> simp [n4]
  · unfold run_write_uring
    simp only [n1, n2, hs, if_false]
    by_cases n4 : env.submit_ret < 0
    · simp [n4]
    · rcases drain_loop_exits env lc bs DRAIN_FUEL 0 0 with hd | hd | hd | hd <;>
        simp [n4, hd]
  · exact submission_loop_no_failure env env.open_ret size lc.toNat 0 hs

/-- C7 (instance): 100 iterations with batch size 16 on a queue of 100 slots. -/
theorem queue_depth_suffices_witness :
    (queue_size 100 16 : Int) = max 16 100 ∧
    (100 : Int) ≤ (queue_size 100 16 : Int) ∧
    Event.queue_init (queue_size 100 16) (env_bounded_queue 100).queue_init_ret
      ∈ (run_write_uring 100 16 4096 0 (env_bounded_queue 100)).2 ∧
    (submission_loop (env_bounded_queue 100) (env_bounded_queue 100).open_ret 4096
      (100 : Int).toNat 0).1 = true ∧
    (run_write_uring 100 16 4096 0 (env_bounded_queue 100)).1 ≠ RunExit.no_sqe ∧
    Event.get_sqe false ∉ (submission_loop (env_bounded_queue 100)
      (env_bounded_queue 100).open_ret 4096 (100 : Int).toNat 0).2 :=
  queue_depth_suffices 100 16 4096 0 (env_bounded_queue 100) (by decide) (by decide)
    (by decide) (by decide) (by decide) (by decide)
    (fun i hi => by
      have h : queue_size 100 16 = 100 := by decide
      rw [h] at hi
      simp [env_bounded_queue, hi])

/-! ## Timing report and byte counts -/

/-- C8: for `size ≥ 1`, `loop_count ≥ 1` and counter readings below `2^64`,
the elapsed count both backends print is `(end - start) mod 2^64`, which is
`end - start` when `end ≥ start`; the cycles-per-byte figure they print is
that count divided by `size * loop_count`, with a positive divisor and a
non-negative value; `run_write` prints both after a successful `open`,
`run_write_uring` whenever it reaches the end of the function. -/
theorem report_values (lc bs : Int) (size : Nat) (sync : Int) (env : Env)
    (hsize : 1 ≤ size) (hlc : 1 ≤ lc)
    (hstart : env.start_cycles < 2 ^ 64) (hend : env.end_cycles < 2 ^ 64) :
    ((total_cycles env.start_cycles env.end_cycles : Int)
      = ((env.end_cycles : Int) - (env.start_cycles : Int)) % 2 ^ 64) ∧
    (env.start_cycles ≤ env.end_cycles →
      total_cycles env.start_cycles env.end_cycles = env.end_cycles - env.start_cycles) ∧
    (cycles_per_byte (total_cycles env.start_cycles env.end_cycles) size lc
      = (total_cycles env.start_cycles env.end_cycles : ℚ) / ((size : ℚ) * (lc : ℚ))) ∧
    (0 : ℚ) < (size : ℚ) * (lc : ℚ) ∧
    0 ≤ cycles_per_byte (total_cycles env.start_cycles env.end_cycles) size lc ∧
    (0 ≤ env.open_ret →
      Event.printf_total false (decide (sync ≠ 0))
          (total_cycles env.start_cycles env.end_cycles) ∈ run_write lc size sync env ∧
      Event.printf_cpb false (decide (sync ≠ 0))
          (cycles_per_byte (total_cycles env.start_cycles env.end_cycles) size lc)
        ∈ run_write lc size sync env) ∧
    ((run_write_uring lc bs size sync env).1 = RunExit.returned →
      Event.printf_total true (decide (sync ≠ 0))
          (total_cycles env.start_cycles env.end_cycles)
        ∈ (run_write_uring lc bs size sync env).2 ∧
      Event.printf_cpb true (decide (sync ≠ 0))
          (cycles_per_byte (total_cycles env.start_cycles env.end_cycles) size lc)
        ∈ (run_write_uring lc bs size sync env).2) := by
  have hpos : (0 : ℚ) < (size : ℚ) * (lc : ℚ) := by
    have a : (0 : ℚ) < (size : ℚ) := by exact_mod_cast hsize
    have b : (0 : ℚ) < (lc : ℚ) := by exact_mod_cast hlc
    exact mul_pos a b
  refine ⟨?_, ?_, rfl, hpos, ?_, ?_, ?_⟩
  · unfold total_cycles to_uint64
    rw [Int.toNat_of_nonneg (Int.emod_nonneg _ (by norm_num))]
    norm_num
  · intro hle
    unfold total_cycles to_uint64
    omega
  · unfold cycles_per_byte
    exact div_nonneg (Nat.cast_nonneg _) (le_of_lt hpos)
  · intro hopen
    have n1 : ¬ env.open_ret < 0 := not_lt.mpr hopen
    simp [run_write, n1, report]
  · intro hret
    unfold run_write_uring at hret ⊢
    by_cases n1 : env.open_ret < 0
    · simp [n1] at hret
    · by_cases n2 : env.queue_init_ret < 0
      · simp [n1, n2] at hret
      · by_cases n3 : (submission_loop env env.open_ret size lc.toNat 0).1 = false
        · simp [n1, n2, n3] at hret
        · by_cases n4 : env.submit_ret < 0
          · simp [n1, n2, n3, n4] at hret
          · rcases drain_loop_exits env lc bs DRAIN_FUEL 0 0 with hd | hd | hd | hd
            · simp [n1, n2, n3, n4, hd, report]
            all_goals simp [n1, n2, n3, n4, hd] at hret

/-- C8 (instance): the timing of `env_ok` in a run of 100 iterations of 4096
bytes. -/
theorem report_values_witness :
    total_cycles env_ok.start_cycles env_ok.end_cycles
      = env_ok.end_cycles - env_ok.start_cycles ∧
    (0 : ℚ) < ((4096 : Nat) : ℚ) * ((100 : Int) : ℚ) ∧
    0 ≤ cycles_per_byte (total_cycles env_ok.start_cycles env_ok.end_cycles) 4096 100 ∧
    Event.printf_cpb false (decide ((0 : Int) ≠ 0))
        (cycles_per_byte (total_cycles env_ok.start_cycles env_ok.end_cycles) 4096 100)
      ∈ run_write 100 4096 0 env_ok ∧
    Event.printf_cpb true (decide ((0 : Int) ≠ 0))
        (cycles_per_byte (total_cycles env_ok.start_cycles env_ok.end_cycles) 4096 100)
      ∈ (run_write_uring 100 16 4096 0 env_ok).2 :=
  ⟨(report_values 100 16 4096 0 env_ok (by decide) (by decide) (by decide)
      (by decide)).2.1 (by decide),
    (report_values 100 16 4096 0 env_ok (by decide) (by decide) (by decide)
      (by decide)).2.2.2.1,
    (report_values 100 16 4096 0 env_ok (by decide) (by decide) (by decide)
      (by decide)).2.2.2.2.1,
    ((report_values 100 16 4096 0 env_ok (by decide) (by decide) (by decide)
      (by decide)).2.2.2.2.2.1 (by decide)).2,
    ((report_values 100 16 4096 0 env_ok (by decide) (by decide) (by decide)
      (by decide)).2.2.2.2.2.2 (by decide)).2⟩

theorem prepared_sizes_append (a b : List Event) :
    prepared_sizes (a ++ b) = prepared_sizes a ++ prepared_sizes b := by
  unfold prepared_sizes
  exact List.filterMap_append _ _ _

theorem prepared_sizes_of_tags (l : List Event) (h : ∀ e ∈ l, e.tag ≠ Tag.prep_write) :
    prepared_sizes l = [] := by
  induction l with
  | nil => rfl
  | cons e l ih =>
    have h1 := h e (List.mem_cons_self e l)
    have h2 := ih (fun x hx => h x (List.mem_cons_of_mem e hx))
    unfold prepared_sizes at h2 ⊢
    rw [List.filterMap_cons]
    cases e <;> first | exact h2 | exact absurd rfl h1

theorem completion_loop_tags (env : Env) (lc bs i : Int) (k : Nat) :
    ∀ (fuel j : Nat), ∀ e ∈ completion_loop env lc bs i k fuel j,
      e.tag = Tag.stderr ∨ e.tag = Tag.cqe_seen := by
  intro fuel
  induction fuel with
  | zero => intro j e he; simp [completion_loop] at he
  | succ f ih =>
    intro j e he
    by_cases hc : (j : Int) < bs ∧ i + (j : Int) < lc
    · simp only [completion_loop, hc, and_self, if_true, List.mem_append, List.mem_cons] at he
      rcases he with h | h | h
      · split_ifs at h
        · simp only [List.mem_singleton] at h
          subst h; exact Or.inl rfl
        · simp at h
      · subst h; exact Or.inr rfl
      · exact ih (j + 1) e h
    · simp [completion_loop, hc] at he

theorem drain_loop_tags (env : Env) (lc bs : Int) :
    ∀ (fuel : Nat) (i : Int) (k : Nat), ∀ e ∈ (drain_loop env lc bs fuel i k).2,
      e.tag = Tag.wait_cqes ∨ e.tag = Tag.stderr ∨ e.tag = Tag.cqe_seen := by
  intro fuel
  induction fuel with
  | zero => intro i k e he; by_cases h : i < lc <;> simp [drain_loop, h] at he
  | succ f ih =>
    intro i k e he
    by_cases h1 : i < lc
    · by_cases h2 : env.wait_ret k < 0
      · simp only [drain_loop, h1, h2, if_true, List.mem_cons, List.mem_singleton] at he
        rcases he with h | h | h
        · subst h; exact Or.inl rfl
        · subst h; exact Or.inr (Or.inl rfl)
        · simp at h
      · by_cases h3 : INT_MAX < i + bs ∨ i + bs < INT_MIN
        · simp only [drain_loop, h1, h2, h3, if_true, if_false, List.mem_cons] at he
          rcases he with h | h
          · subst h; exact Or.inl rfl
          · exact Or.inr (completion_loop_tags env lc bs i k _ _ e h)
        · simp only [drain_loop, h1, h2, h3, if_true, if_false, List.mem_cons,
            List.mem_append] at he
          rcases he with h | h | h
          · subst h; exact Or.inl rfl
          · exact Or.inr (completion_loop_tags env lc bs i k _ _ e h)
          · exact ih (i + bs) (k + 1) e h
    · simp [drain_loop, h1] at he

theorem drain_loop_prepared (env : Env) (lc bs : Int) (fuel : Nat) (i : Int) (k : Nat) :
    prepared_sizes (drain_loop env lc bs fuel i k).2 = [] := by
  apply prepared_sizes_of_tags
  intro e he
  rcases drain_loop_tags env lc bs fuel i k e he with h | h | h <;> simp [h]

theorem submission_loop_all_sizes (env : Env) (fd : Int) (size : Nat) :
    ∀ n i, (submission_loop env fd size n i).1 = true →
      prepared_sizes (submission_loop env fd size n i).2
        = List.replicate n (to_uint32 (size : Int)) := by
  intro n
  induction n with
  | zero => intro i _; rfl
  | succ n ih =>
    intro i h
    by_cases h0 : env.get_sqe_ok i = true
    · simp only [submission_loop, h0, if_true] at h ⊢
      have := ih (i + 1) h
      unfold prepared_sizes at this ⊢
      simp [List.replicate_succ, this]
    · simp [submission_loop, h0] at h

/-- The prepared writes of a run are those of its submission loop. -/
theorem run_write_uring_prepared (lc bs : Int) (size : Nat) (sync : Int) (env : Env) :
    prepared_sizes (run_write_uring lc bs size sync env).2
      = if env.open_ret < 0 ∨ env.queue_init_ret < 0 then []
        else prepared_sizes (submission_loop env env.open_ret size lc.toNat 0).2 := by
  have hdr := drain_loop_prepared env lc bs DRAIN_FUEL 0 0
  unfold prepared_sizes at hdr ⊢
  unfold run_write_uring
  by_cases n1 : env.open_ret < 0
  · simp [n1]
  · by_cases n2 : env.queue_init_ret < 0
    · simp [n1, n2]
    · by_cases n3 : (submission_loop env env.open_ret size lc.toNat 0).1 = false
      · simp [n1, n2, n3, List.filterMap_append]
      · by_cases n4 : env.submit_ret < 0
        · simp [n1, n2, n3, n4, List.filterMap_append]
        · cases hd : (drain_loop env lc bs DRAIN_FUEL 0 0).1 <;>
            simp [n1, n2, n3, n4, List.filterMap_append, hdr, report]

/-- A run that reaches the end of the function passed every earlier test. -/
theorem run_write_uring_returned (lc bs : Int) (size : Nat) (sync : Int) (env : Env)
    (h : (run_write_uring lc bs size sync env).1 = RunExit.returned) :
    ¬ env.open_ret < 0 ∧ ¬ env.queue_init_ret < 0 ∧
      (submission_loop env env.open_ret size lc.toNat 0).1 = true := by
  unfold run_write_uring at h
  by_cases n1 : env.open_ret < 0
  · simp [n1] at h
  · by_cases n2 : env.queue_init_ret < 0
    · simp [n1, n2] at h
    · by_cases n3 : (submission_loop env env.open_ret size lc.toNat 0).1 = false
      · simp [n1, n2, n3] at h
      · exact ⟨n1, n2, by simpa using n3⟩

theorem run_write_sizes (lc : Int) (size : Nat) (sync : Int) (env : Env) :
    pwrite_sizes (run_write lc size sync env)
      = if env.open_ret < 0 then [] else List.replicate lc.toNat size := by
  have hl : ∀ l : List Nat,
      pwrite_sizes (l.flatMap (write_body env env.open_ret size))
        = List.replicate l.length size := by
    intro l
    induction l with
    | nil => rfl
    | cons a l ih =>
      unfold pwrite_sizes at ih ⊢
      rw [List.flatMap_cons, List.filterMap_append, ih]
      unfold write_body
      split_ifs <;> simp [List.replicate_succ]
  by_cases n1 : env.open_ret < 0
  · simp [run_write, n1, pwrite_sizes]
  · have := hl (List.range lc.toNat)
    unfold pwrite_sizes at this
    simp [run_write, n1, pwrite_sizes, report, List.filterMap_append, this]

/-- C10: for every `size` that `parse_arguments` accepts, each write operation
`run_write_uring` prepares carries `size mod 2^32` bytes (all `loop_count` of
them when the run reaches the end of the function), each `pwrite` of
`run_write` asks for `size` bytes (`loop_count` calls once `open` succeeded),
and the two byte counts agree exactly when `size < 2^32`. -/
theorem byte_counts (argc : Nat) (a2 a3 a4 a5 : Int) (cfg : Config) (env1 env2 : Env)
    (h : parse_arguments argc a2 a3 a4 a5 = Except.ok cfg) :
    (∀ x ∈ prepared_sizes
        (run_write_uring cfg.loop_count cfg.batch_size cfg.size cfg.sync env2).2,
      x = cfg.size % 2 ^ 32) ∧
    ((run_write_uring cfg.loop_count cfg.batch_size cfg.size cfg.sync env2).1
        = RunExit.returned →
      prepared_sizes (run_write_uring cfg.loop_count cfg.batch_size cfg.size cfg.sync env2).2
        = List.replicate cfg.loop_count.toNat (cfg.size % 2 ^ 32)) ∧
    (∀ x ∈ pwrite_sizes (run_write cfg.loop_count cfg.size cfg.sync env1), x = cfg.size) ∧
    (0 ≤ env1.open_ret →
      pwrite_sizes (run_write cfg.loop_count cfg.size cfg.sync env1)
        = List.replicate cfg.loop_count.toNat cfg.size) ∧
    (cfg.size % 2 ^ 32 = cfg.size ↔ cfg.size < 2 ^ 32) ∧
    0 < cfg.size ∧ cfg.size < 2 ^ 64 := by
  have hu : to_uint32 (cfg.size : Int) = cfg.size % 2 ^ 32 := by
    unfold to_uint32; omega
  have hsz : cfg.size = to_uint64 a2 ∧ 0 < to_uint64 a2 := by
    unfold parse_arguments at h
    by_cases h1 : argc < 3
    · simp [h1] at h
    · by_cases h2 : to_uint64 a2 ≤ 0 ∨ (if argc > 3 then a3 else 1) ≤ 0
          ∨ (if argc > 4 then a4 else 64) ≤ 0
      · simp only [h1, h2, if_true, if_false] at h
        exact absurd h (by simp)
      · simp only [h1, h2, if_false, Except.ok.injEq] at h
        rw [not_or] at h2
        subst h
        exact ⟨rfl, by omega⟩
  have hp : ∀ lc bs sync,
      (∀ x ∈ prepared_sizes (run_write_uring lc bs cfg.size sync env2).2,
        x = to_uint32 (cfg.size : Int)) ∧
      ((run_write_uring lc bs cfg.size sync env2).1 = RunExit.returned →
        prepared_sizes (run_write_uring lc bs cfg.size sync env2).2
          = List.replicate lc.toNat (to_uint32 (cfg.size : Int))) := by
    intro lc bs sync
    have hsub := submission_loop_sizes env2 env2.open_ret cfg.size lc.toNat 0
    have hall := submission_loop_all_sizes env2 env2.open_ret cfg.size lc.toNat 0
    have hpre := run_write_uring_prepared lc bs cfg.size sync env2
    rw [hpre]
    constructor
    · intro x hx
      split_ifs at hx
      · simp at hx
      · exact hsub x hx
    · intro hret
      have hr := run_write_uring_returned lc bs cfg.size sync env2 hret
      rw [if_neg (by rw [not_or]; exact ⟨hr.1, hr.2.1⟩)]
      exact hall hr.2.2
  have hw := run_write_sizes cfg.loop_count cfg.size cfg.sync env1
  refine ⟨?_, ?_, ?_, ?_, ?_, ?_, ?_⟩
  · rw [← hu]; exact (hp _ _ _).1
  · rw [← hu]; exact (hp _ _ _).2
  · intro x hx
    rw [hw] at hx
    split_ifs at hx
    · simp at hx
    · exact (List.mem_replicate.mp hx).2
  · intro hopen
    rw [hw, if_neg (not_lt.mpr hopen)]
  · constructor
    · intro he; rw [← he]; exact Nat.mod_lt _ (by norm_num)
    · intro hlt; exact Nat.mod_eq_of_lt hlt
  · rw [hsz.1]; exact hsz.2
  · rw [hsz.1]; unfold to_uint64; omega

/-- C10 (instance): the run `<file> 4096 100 16`. -/
theorem byte_counts_witness :
    (∀ x ∈ prepared_sizes (run_write_uring 100 16 4096 0 env_ok).2, x = 4096 % 2 ^ 32) ∧
    ((run_write_uring 100 16 4096 0 env_ok).1 = RunExit.returned →
      prepared_sizes (run_write_uring 100 16 4096 0 env_ok).2
        = List.replicate (100 : Int).toNat (4096 % 2 ^ 32)) ∧
    (∀ x ∈ pwrite_sizes (run_write 100 4096 0 env_ok), x = 4096) ∧
    (0 ≤ env_ok.open_ret →
      pwrite_sizes (run_write 100 4096 0 env_ok) = List.replicate (100 : Int).toNat 4096) ∧
    (4096 % 2 ^ 32 = 4096 ↔ 4096 < 2 ^ 32) ∧
    0 < 4096 ∧ 4096 < 2 ^ 64 :=
  byte_counts 5 4096 100 16 0 ⟨4096, 100, 16, 0⟩ env_ok env_ok (by rfl)

end WriteIoUring
